import Mathlib

/-!
Shallow embedding of the NIDS real-time pipeline:
`backend/extractor.py`, `backend/ml_engine.py`, `backend/sniffer.py`,
`backend/api.py` and the feature list of `generate_model.py`.
Confidences are rationals, packet fields are naturals, the nondeterminism
of `random.random()` / `random.choice` is passed in explicitly.
-/

namespace NIDS

/-! ## Packet model (the scapy layers the code reads) -/

/-- The four TCP control flags `extract_features` counts. -/
structure TCPFlags where
  syn : Bool
  ack : Bool
  fin : Bool
  rst : Bool
  deriving DecidableEq, Repr

/-- Transport layer of a packet: `TCP in packet`, `UDP in packet`, or neither.
`flagsStr` is scapy's `str(packet[TCP].flags)` rendering, kept opaque. -/
inductive Transport where
  | tcp (flags : TCPFlags) (flagsStr : String)
  | udp
  | other
  deriving DecidableEq, Repr

/-- The IP-layer fields the code reads: `ttl`, `proto`, `src`, `dst`. -/
structure IPLayer where
  ttl : ℕ
  proto : ℕ
  src : String
  dst : String
  deriving DecidableEq, Repr

/-- A captured packet: wire length `len(packet)`, capture time `packet.time`,
optional IP layer (`IP in packet`), transport layer, and the base64 rendering
of the raw bytes. -/
structure Packet where
  wireLen : ℕ
  time : ℚ
  ip : Option IPLayer
  transport : Transport
  rawB64 : String
  deriving DecidableEq, Repr

/-! ## Feature extractor (`backend/extractor.py`, `extract_features`) -/

/-- `tcp_layer.flags.S + tcp_layer.flags.A + tcp_layer.flags.F + tcp_layer.flags.R`
for TCP; `0` for UDP or any other transport. -/
def flagsCount : Transport → ℕ
  | .tcp f _ => f.syn.toNat + f.ack.toNat + f.fin.toNat + f.rst.toNat
  | .udp => 0
  | .other => 0

/-- `extract_features`: `[proto, len(packet), ttl, flags_count]` when the packet
has an IP layer, `None` otherwise. -/
def extract_features (p : Packet) : Option (List ℕ) :=
  match p.ip with
  | Option.none => Option.none
  | some ipl => some [ipl.proto, p.wireLen, ipl.ttl, flagsCount p.transport]

/-- The feature order documented in `extract_features`'s docstring. -/
def extractorFeatureNames : List String := ["protocol", "length", "ttl", "flags_count"]

/-- `SNIFFER_FEATURES` of `generate_model.py`: the column order the model is
trained on. -/
def SNIFFER_FEATURES : List String :=
  ["size", "ip_header_len", "ip_ttl", "sport", "dport",
   "tcp_syn_flag", "tcp_ack_flag", "tcp_window",
   "protocol_TCP", "protocol_UDP", "protocol_ICMP"]

/-! ## ML engine (`backend/ml_engine.py`, `MLEngine.predict`) -/

/-- A loaded sklearn model: it was fitted on `nFeatures` columns (always at
least one), `classify` is `model.predict` (true = class 1, Anomaly), `proba`
is `model.predict_proba` as (P[class 0], P[class 1]), and `fails` marks the
inputs on which the underlying library raises (a shape mismatch always
raises, `fails` covers any further internal error). -/
structure Model where
  nFeatures : ℕ
  nFeatures_pos : 0 < nFeatures
  classify : List ℕ → Bool
  proba : List ℕ → ℚ × ℚ
  fails : List ℕ → Bool

/-- `MLEngine.predict`: `(0, 0.0)` when no model is loaded; otherwise the
model's label and the probability of the predicted class, with every
exception of the underlying library caught and mapped to `(0, 0.0)`. -/
def MLEngine.predict (model : Option Model) (features : List ℕ) : ℤ × ℚ :=
  match model with
  | Option.none => (0, 0)
  | some m =>
    if features.length ≠ m.nFeatures ∨ m.fails features = true then (0, 0)
    else
      let c := m.classify features
      (if c then 1 else 0, if c then (m.proba features).2 else (m.proba features).1)

/-! ## Decision policy (`backend/sniffer.py`, `process_packet` step 3) -/

/-- The sensitivity threshold of `process_packet`: an Anomaly verdict whose
confidence is below the threshold is downgraded to Normal with the
complementary confidence. -/
def applySensitivity (classification : ℤ) (confidence sensitivity : ℚ) : ℤ × ℚ :=
  if classification = 1 ∧ confidence < sensitivity then (0, 1 - confidence)
  else (classification, confidence)

/-! ## Log-record assembly (`backend/extractor.py`, `packet_to_log_data`) -/

/-- One decimal digit character. -/
def digitCharAux : ℕ → Char
  | 0 => '0'
  | 1 => '1'
  | 2 => '2'
  | 3 => '3'
  | 4 => '4'
  | 5 => '5'
  | 6 => '6'
  | 7 => '7'
  | 8 => '8'
  | _ => '9'

/-- Decimal digits of `n`, most significant first (fuelled structural
recursion; `n + 1` units of fuel always suffice). -/
def decDigitsAux : ℕ → ℕ → List Char
  | 0, _ => []
  | fuel + 1, n =>
    if n < 10 then [digitCharAux n]
    else decDigitsAux fuel (n / 10) ++ [digitCharAux (n % 10)]

/-- Decimal rendering of a natural number. -/
def decDigits (n : ℕ) : List Char := decDigitsAux (n + 1) n

/-- The four fractional digits of `m / 10000` (with `m < 10000`), as
`%.4f` prints them. -/
def fourFrac (m : ℕ) : List Char :=
  [digitCharAux (m / 1000 % 10), digitCharAux (m / 100 % 10),
   digitCharAux (m / 10 % 10), digitCharAux (m % 10)]

/-- Python's `f'{q:.4f}'` over the rationals: round `|q|` to four fractional
digits and print sign, integer part, a dot, and exactly four digits. -/
def format4 (q : ℚ) : String :=
  let n : ℕ := (round (|q| * 10000) : ℤ).toNat
  (if q < 0 then "-" else "") ++
    String.mk (decDigits (n / 10000)) ++ "." ++ String.mk (fourFrac (n % 10000))

/-- The `protocol` field of a log record is dynamically typed in the source:
an IP protocol number, or a name such as `"TCP"` / `"Other"`. -/
inductive ProtoField where
  | str (s : String)
  | num (n : ℕ)
  deriving DecidableEq, Repr

/-- The dict `packet_to_log_data` builds. -/
structure LogData where
  timestamp : ℚ
  src_ip : Option String
  dst_ip : Option String
  protocol : ProtoField
  size : ℕ
  flags : String
  classification : String
  confidence : String
  deriving DecidableEq, Repr

/-- `packet_to_log_data`: the human-readable log dict. `confidence` is
rendered with `f'{confidence:.4f}'`. -/
def packet_to_log_data (p : Packet) (classification : ℤ) (confidence : ℚ) : LogData :=
  let base : LogData :=
    { timestamp := p.time
      src_ip := Option.none
      dst_ip := Option.none
      protocol := .str "Other"
      size := p.wireLen
      flags := ""
      classification := if classification = 1 then "Anomaly" else "Normal"
      confidence := format4 confidence }
  match p.ip with
  | Option.none => base
  | some ipl =>
    let withIP : LogData :=
      { base with src_ip := some ipl.src, dst_ip := some ipl.dst, protocol := .num ipl.proto }
    match p.transport with
    | .tcp _ fs => { withIP with protocol := .str "TCP", flags := fs }
    | .udp => { withIP with protocol := .str "UDP" }
    | .other => withIP

/-- The full `log_entry` of `process_packet`: the log dict plus the
`ml_features` debug string and the base64 `raw_data`. -/
structure LogEntry extends LogData where
  ml_features : String
  raw_data : String
  deriving DecidableEq, Repr

/-! ## Capture loop (`backend/sniffer.py`, `process_packet`) -/

/-- `process_packet`: extract features (return unchanged on a non-IP packet),
predict, apply the sensitivity threshold, and append the enriched record to
`LIVE_PACKETS`. -/
def process_packet (sensitivity : ℚ) (model : Option Model)
    (buffer : List LogEntry) (p : Packet) : List LogEntry :=
  match extract_features p with
  | Option.none => buffer
  | some features =>
    let raw := MLEngine.predict model features
    let final := applySensitivity raw.1 raw.2 sensitivity
    let entry : LogEntry :=
      { toLogData := packet_to_log_data p final.1 final.2
        ml_features := toString features
        raw_data := p.rawB64 }
    buffer ++ [entry]

/-! ## Batching emitter (`backend/sniffer.py`, `send_traffic_batch`,
`api_sender_thread`) -/

/-- `BATCH_SIZE` of `sniffer.py` (defined, but read nowhere). -/
def BATCH_SIZE : ℕ := 10

/-- `SEND_INTERVAL` of `sniffer.py`: seconds between timed flushes. -/
def SEND_INTERVAL : ℕ := 1

/-- `send_traffic_batch`: a no-op when the buffer is empty; otherwise the
buffer is swapped out and the whole batch is posted once. The outcome of the
delivery (`deliveryOk`) never puts records back: the cleared buffer and the
attempted batch are the same either way. -/
def send_traffic_batch (buffer : List LogEntry) (_deliveryOk : Bool) :
    List LogEntry × Option (List LogEntry) :=
  if buffer = [] then (buffer, Option.none)
  else ([], some buffer)

/-- An event of the sniffer process: the capture loop handing
`process_packet` one packet, or the sender thread waking after
`SEND_INTERVAL` (with the delivery outcome it would observe). -/
inductive SnifferEvent where
  | capture (p : Packet)
  | timerTick (deliveryOk : Bool)
  deriving Repr

/-- Buffer plus the number of delivery attempts made so far. -/
structure EmitterState where
  buffer : List LogEntry
  flushAttempts : ℕ
  deriving DecidableEq, Repr

/-- One event of the sniffer: `process_packet` only appends (no size check
anywhere in the source), and only `api_sender_thread`'s tick calls
`send_traffic_batch`. -/
def emitterStep (sensitivity : ℚ) (model : Option Model)
    (st : EmitterState) : SnifferEvent → EmitterState
  | .capture p => { st with buffer := process_packet sensitivity model st.buffer p }
  | .timerTick ok =>
    let r := send_traffic_batch st.buffer ok
    { buffer := r.1, flushAttempts := st.flushAttempts + (if r.2.isSome then 1 else 0) }

/-- Run the sniffer over a sequence of events. -/
def emitterRun (sensitivity : ℚ) (model : Option Model)
    (st : EmitterState) (evs : List SnifferEvent) : EmitterState :=
  evs.foldl (emitterStep sensitivity model) st

/-! ## Ingestion store (`backend/api.py`) -/

/-- Alert lifecycle states. -/
inductive AlertStatus where
  | New
  | Processed
  deriving DecidableEq, Repr

/-- An entry of `ALERT_HISTORY`. -/
structure ApiAlert where
  alert_id : ℕ
  packet_id : ℕ
  timestamp : ℚ
  src_ip : Option String
  attack_type : String
  confidence : String
  status : AlertStatus
  deriving DecidableEq, Repr

/-- A log entry once `ingest_packet` has stamped its `id`. -/
structure IngestedRecord where
  id : ℕ
  entry : LogEntry
  deriving DecidableEq, Repr

/-- `MAX_LIVE_PACKETS` of `api.py`: the retention window. -/
def MAX_LIVE_PACKETS : ℕ := 50

/-- The API process state: `LAST_PACKET_ID`, `LIVE_PACKET_LOG`,
`ALERT_HISTORY`. -/
structure ApiState where
  lastPacketId : ℕ
  liveLog : List IngestedRecord
  alerts : List ApiAlert
  deriving DecidableEq, Repr

/-- Process start: counter zero, both lists empty. -/
def emptyApiState : ApiState := ⟨0, [], []⟩

/-- Python's `l[-n:]`. -/
def takeLast (n : ℕ) (l : List α) : List α := l.drop (l.length - n)

/-- The alert dict `ingest_packet` appends: id one past the current
`ALERT_HISTORY` length, fields copied from the ingested entry, status New. -/
def mkAlert (alerts : List ApiAlert) (pid : ℕ) (e : LogEntry) (attack : String) : ApiAlert :=
  { alert_id := alerts.length + 1
    packet_id := pid
    timestamp := e.timestamp
    src_ip := e.src_ip
    attack_type := attack
    confidence := e.confidence
    status := .New }

/-- One incoming record together with the resolved randomness of
`ingest_packet`: the `random.random() < 0.5` coin and the
`random.choice` attack type. -/
structure IngestItem where
  entry : LogEntry
  coin : Bool
  attack : String
  deriving DecidableEq, Repr

/-- Body of the batch loop of `ingest_packet`: bump `LAST_PACKET_ID`, stamp
and append the record, optionally derive an alert, record the assigned id. -/
def ingestStep (acc : ApiState × List ℕ) (item : IngestItem) : ApiState × List ℕ :=
  let st := acc.1
  let nid := st.lastPacketId + 1
  let st1 : ApiState :=
    { st with lastPacketId := nid, liveLog := st.liveLog ++ [⟨nid, item.entry⟩] }
  let st2 : ApiState :=
    if item.coin then
      { st1 with alerts := st1.alerts ++ [mkAlert st1.alerts nid item.entry item.attack] }
    else st1
  (st2, acc.2 ++ [nid])

/-- Batch branch of `ingest_packet` (`'logs' in data`): run the loop over
every record, then truncate `LIVE_PACKET_LOG` to the last
`MAX_LIVE_PACKETS` entries; returns the new state and the assigned ids. -/
def ingestBatch (st : ApiState) (items : List IngestItem) : ApiState × List ℕ :=
  let r := items.foldl ingestStep (st, [])
  ({ r.1 with liveLog := takeLast MAX_LIVE_PACKETS r.1.liveLog }, r.2)

/-- Single-packet branch of `ingest_packet`: stamp, append, truncate, then
optionally derive an alert. -/
def ingestSingle (st : ApiState) (item : IngestItem) : ApiState × ℕ :=
  let nid := st.lastPacketId + 1
  let newLog := takeLast MAX_LIVE_PACKETS (st.liveLog ++ [⟨nid, item.entry⟩])
  let st1 : ApiState := { st with lastPacketId := nid, liveLog := newLog }
  let st2 : ApiState :=
    if item.coin then
      { st1 with alerts := st1.alerts ++ [mkAlert st1.alerts nid item.entry item.attack] }
    else st1
  (st2, nid)

/-- `get_alert_history`: the alerts whose status is still New, in list
order. -/
def get_alert_history (alerts : List ApiAlert) : List ApiAlert :=
  alerts.filter (fun a => a.status == AlertStatus.New)

/-- The loop of `handle_alert_action`: set the first alert with the given id
to Processed and `break`; leave everything else alone. -/
def update_alert_status : List ApiAlert → ℕ → List ApiAlert
  | [], _ => []
  | a :: rest, aid =>
    if a.alert_id = aid then { a with status := .Processed } :: rest
    else a :: update_alert_status rest aid

/-! ## Concrete inputs used by witnesses and evaluations -/

/-- A TCP SYN packet: the kind of packet the extractor's own self-test
builds (`IP(...)/TCP(dport=80, flags="S")`). -/
def samplePacket : Packet :=
  { wireLen := 60
    time := 0
    ip := some { ttl := 64, proto := 6, src := "192.168.1.1", dst := "8.8.8.8" }
    transport := .tcp ⟨true, false, false, false⟩ "S"
    rawB64 := "" }

/-- A packet with no IP layer at all (e.g. a bare Ethernet frame). -/
def nonIpPacket : Packet :=
  { wireLen := 60, time := 0, ip := Option.none, transport := .other, rawB64 := "" }

/-- An enriched record as the sniffer would post it. -/
def sampleEntry : LogEntry :=
  { timestamp := 0
    src_ip := some "192.168.1.1"
    dst_ip := some "8.8.8.8"
    protocol := .str "TCP"
    size := 60
    flags := "S"
    classification := "Normal"
    confidence := "0.0000"
    ml_features := "[6, 60, 64, 1]"
    raw_data := "" }

/-- `sampleEntry` arriving at the API with its randomness resolved. -/
def sampleItem : IngestItem := { entry := sampleEntry, coin := true, attack := "DDoS" }

/-! ## Helper lemmas -/

lemma digitCharAux_isDigit (d : ℕ) : (digitCharAux d).isDigit := by
  unfold digitCharAux
  split <;> decide

lemma decDigitsAux_isDigit (fuel : ℕ) :
    ∀ n, ∀ c ∈ decDigitsAux fuel n, c.isDigit := by
  induction fuel with
  | zero => intro n c hc; simp [decDigitsAux] at hc
  | succ fuel ih =>
    intro n c hc
    rw [decDigitsAux] at hc
    split at hc
    · rcases List.mem_singleton.mp hc with rfl
      exact digitCharAux_isDigit n
    · rcases List.mem_append.mp hc with h | h
      · exact ih _ c h
      · rcases List.mem_singleton.mp h with rfl
        exact digitCharAux_isDigit _

lemma decDigits_isDigit (n : ℕ) : ∀ c ∈ decDigits n, c.isDigit :=
  decDigitsAux_isDigit (n + 1) n

lemma fourFrac_isDigit (m : ℕ) : ∀ c ∈ fourFrac m, c.isDigit := by
  intro c hc
  simp only [fourFrac, List.mem_cons, List.not_mem_nil, or_false] at hc
  rcases hc with rfl | rfl | rfl | rfl <;> exact digitCharAux_isDigit _

lemma isDigit_ne_dot {c : Char} (h : c.isDigit) : c ≠ '.' := by
  intro he
  rw [he] at h
  exact absurd h (by decide)

lemma extract_features_of_ip_none {p : Packet} (h : p.ip = Option.none) :
    extract_features p = Option.none := by
  simp [extract_features, h]

lemma process_packet_of_ip_none (sensitivity : ℚ) (model : Option Model)
    (buffer : List LogEntry) {p : Packet} (h : p.ip = Option.none) :
    process_packet sensitivity model buffer p = buffer := by
  simp [process_packet, extract_features_of_ip_none h]

/-! ## Claims -/

/-- C1: for every classification result and every sensitivity in [0,1], the
decision policy of `process_packet` flips a raw Anomaly verdict whose
confidence is strictly below the sensitivity to Normal with confidence
`1 - confidence`, and passes every other result through unchanged. -/
theorem C1_decision_policy_threshold (classification : ℤ) (confidence sensitivity : ℚ)
    (_hs0 : 0 ≤ sensitivity) (_hs1 : sensitivity ≤ 1) :
    (classification = 1 ∧ confidence < sensitivity →
      applySensitivity classification confidence sensitivity = (0, 1 - confidence)) ∧
    ((classification = 0 ∨ sensitivity ≤ confidence) →
      applySensitivity classification confidence sensitivity
        = (classification, confidence)) := by
  constructor
  · intro h
    simp [applySensitivity, h.1, h.2]
  · intro h
    unfold applySensitivity
    rw [if_neg]
    rintro ⟨hc1, hlt⟩
    rcases h with h0 | hge
    · rw [h0] at hc1
      exact absurd hc1 (by norm_num)
    · exact absurd hlt (not_lt.2 hge)

/-- Witness for C1: the spec's own example, raw {Anomaly, 0.3} at
sensitivity 0.5 becomes {Normal, 0.7}. -/
theorem C1_decision_policy_threshold_witness :
    applySensitivity 1 (3/10) (1/2) = (0, 7/10) := by
  have h := (C1_decision_policy_threshold 1 (3/10) (1/2) (by norm_num) (by norm_num)).1
    ⟨rfl, by norm_num⟩
  rw [h]
  norm_num

/-- C3: `MLEngine.predict` is total; with no model loaded it returns
`(0, 0.0)`, any internal failure of the underlying library (a shape
mismatch, or any other raised error) is caught and mapped to `(0, 0.0)`,
and in particular the empty feature vector always yields `(0, 0.0)`. -/
theorem C3_predict_never_raises (model : Option Model) (features : List ℕ) :
    (model = Option.none → MLEngine.predict model features = (0, 0)) ∧
    (∀ m : Model, model = some m →
      (features.length ≠ m.nFeatures ∨ m.fails features = true) →
      MLEngine.predict model features = (0, 0)) ∧
    (∀ m : Model, MLEngine.predict (some m) [] = (0, 0)) := by
  refine ⟨?_, ?_, ?_⟩
  · intro h
    rw [h]
    rfl
  · intro m hm hfail
    rw [hm]
    simp only [MLEngine.predict]
    rw [if_pos hfail]
  · intro m
    have h0 : ([] : List ℕ).length ≠ m.nFeatures := by
      simpa using (Nat.ne_of_lt m.nFeatures_pos)
    simp only [MLEngine.predict]
    rw [if_pos (Or.inl h0)]

/-- C6: a flush with an empty buffer attempts no delivery and leaves the
buffer unchanged; a flush with a non-empty buffer attempts exactly the
current batch and leaves the buffer empty whatever the delivery outcome;
the outcome never puts records back. -/
theorem C6_flush_empties_and_never_requeues (buffer : List LogEntry) (ok : Bool) :
    (buffer = [] → send_traffic_batch buffer ok = ([], Option.none)) ∧
    (buffer ≠ [] → send_traffic_batch buffer ok = ([], some buffer)) ∧
    (send_traffic_batch buffer ok).1 = [] ∧
    send_traffic_batch buffer true = send_traffic_batch buffer false := by
  unfold send_traffic_batch
  by_cases h : buffer = [] <;> simp [h]

/-- C7: `extract_features` returns None exactly on packets without an IP
layer, `process_packet` leaves the buffer untouched for such a packet, and
a capture sequence of only non-IP packets adds nothing to the buffer (so
nothing of it can ever reach the Ingestion Store). -/
theorem C7_non_ip_packets_skipped (sensitivity : ℚ) (model : Option Model)
    (buffer : List LogEntry) (p : Packet) :
    (extract_features p = Option.none ↔ p.ip = Option.none) ∧
    (p.ip = Option.none → process_packet sensitivity model buffer p = buffer) ∧
    (∀ ps : List Packet, (∀ q ∈ ps, q.ip = Option.none) →
      ps.foldl (process_packet sensitivity model) buffer = buffer) := by
  refine ⟨?_, process_packet_of_ip_none sensitivity model buffer, ?_⟩
  · constructor
    · intro h
      cases hip : p.ip with
      | none => rfl
      | some ipl => simp [extract_features, hip] at h
    · exact extract_features_of_ip_none
  · intro ps
    induction ps generalizing buffer with
    | nil => intro _; rfl
    | cons q qs ih =>
      intro h
      simp only [List.foldl_cons]
      rw [process_packet_of_ip_none sensitivity model buffer (h q (List.mem_cons_self q qs))]
      exact ih buffer (fun r hr => h r (List.mem_cons_of_mem q hr))

lemma update_alert_status_idem (alerts : List ApiAlert) (aid : ℕ) :
    update_alert_status (update_alert_status alerts aid) aid
      = update_alert_status alerts aid := by
  induction alerts with
  | nil => rfl
  | cons a rest ih =>
    by_cases h : a.alert_id = aid
    · simp [update_alert_status, h]
    · simp [update_alert_status, h, ih]

lemma update_alert_status_no_match (alerts : List ApiAlert) (aid : ℕ)
    (h : ∀ a ∈ alerts, a.alert_id ≠ aid) :
    update_alert_status alerts aid = alerts := by
  induction alerts with
  | nil => rfl
  | cons a rest ih =>
    simp [update_alert_status, h a (List.mem_cons_self a rest),
      ih (fun b hb => h b (List.mem_cons_of_mem a hb))]

lemma update_alert_status_find (alerts : List ApiAlert) (aid : ℕ) (a : ApiAlert)
    (h : alerts.find? (fun x => x.alert_id == aid) = some a) :
    (update_alert_status alerts aid).find? (fun x => x.alert_id == aid)
      = some { a with status := .Processed } := by
  induction alerts with
  | nil => simp [List.find?] at h
  | cons b rest ih =>
    by_cases hb : b.alert_id = aid
    · rw [List.find?_cons_of_pos _ (by simp [hb])] at h
      injection h with h
      subst h
      rw [show update_alert_status (b :: rest) aid
          = { b with status := .Processed } :: rest from by simp [update_alert_status, hb]]
      rw [List.find?_cons_of_pos _ (by simp [hb])]
    · rw [List.find?_cons_of_neg _ (by simp [hb])] at h
      rw [show update_alert_status (b :: rest) aid
          = b :: update_alert_status rest aid from by simp [update_alert_status, hb]]
      rw [List.find?_cons_of_neg _ (by simp [hb])]
      exact ih h

lemma update_alert_status_length (alerts : List ApiAlert) (aid : ℕ) :
    (update_alert_status alerts aid).length = alerts.length := by
  induction alerts with
  | nil => rfl
  | cons a rest ih => by_cases h : a.alert_id = aid <;> simp [update_alert_status, h, ih]

/-- C8: every alert `ingest_packet` creates starts with status New; updating
a matching alert sets it to Processed (first match, as the loop's `break`
does); the update is idempotent; and an id matching no alert leaves the
list unchanged — all total, never an error. -/
theorem C8_update_alert_status_total_idempotent (alerts : List ApiAlert) (aid pid : ℕ)
    (e : LogEntry) (attack : String) :
    (mkAlert alerts pid e attack).status = .New ∧
    (∀ a : ApiAlert, alerts.find? (fun x => x.alert_id == aid) = some a →
      (update_alert_status alerts aid).find? (fun x => x.alert_id == aid)
        = some { a with status := .Processed }) ∧
    update_alert_status (update_alert_status alerts aid) aid
      = update_alert_status alerts aid ∧
    ((∀ a ∈ alerts, a.alert_id ≠ aid) → update_alert_status alerts aid = alerts) :=
  ⟨rfl, update_alert_status_find alerts aid, update_alert_status_idem alerts aid,
    update_alert_status_no_match alerts aid⟩

/-- C10: the alert-history read returns exactly the alerts whose status is
still New, as a sublist (original insertion order) of `ALERT_HISTORY`; a
Processed alert is never returned, yet `update_alert_status` keeps every
alert in the underlying list. -/
theorem C10_alert_history_new_only (alerts : List ApiAlert) (aid : ℕ) :
    (get_alert_history alerts).Sublist alerts ∧
    (∀ a : ApiAlert, a ∈ get_alert_history alerts ↔ a ∈ alerts ∧ a.status = .New) ∧
    (∀ a ∈ get_alert_history alerts, a.status ≠ .Processed) ∧
    (update_alert_status alerts aid).length = alerts.length := by
  have hmem : ∀ a : ApiAlert, a ∈ get_alert_history alerts ↔ a ∈ alerts ∧ a.status = .New := by
    intro a
    rw [get_alert_history, List.mem_filter]
    simp
  refine ⟨List.filter_sublist alerts, hmem, ?_, update_alert_status_length alerts aid⟩
  intro a ha
  rw [((hmem a).mp ha).2]
  intro h
  exact absurd h (by decide)

lemma packet_to_log_data_confidence (p : Packet) (cls : ℤ) (conf : ℚ) :
    (packet_to_log_data p cls conf).confidence = format4 conf := by
  rcases p with ⟨len, time, ip, tr, raw⟩
  cases ip <;> cases tr <;> rfl

lemma format4_shape (q : ℚ) :
    format4 q = String.mk (((if q < 0 then ['-'] else []) ++
      decDigits ((round (|q| * 10000) : ℤ).toNat / 10000)) ++
      '.' :: fourFrac ((round (|q| * 10000) : ℤ).toNat % 10000)) := by
  apply String.ext
  simp only [format4, String.data_append]
  split <;> simp

lemma format4_58 : format4 (58/100) = "0.5800" := by
  have h : round ((|(58:ℚ)/100|) * 10000) = 5800 := by
    rw [abs_of_nonneg (by norm_num : (0:ℚ) ≤ 58/100), round_eq, Int.floor_eq_iff]
    constructor <;> norm_num
  simp only [format4, h, if_neg (by norm_num : ¬ (58:ℚ)/100 < 0)]
  rfl

/-- C9: the `confidence` field of every log record `packet_to_log_data`
builds is not a number but a decimal string with exactly four fractional
digits — some digit-free-of-dots prefix, a dot, then exactly four digit
characters — and a confidence of 0.58 is stored as the string "0.5800". -/
theorem C9_confidence_four_decimal_string (p : Packet) (classification : ℤ)
    (confidence : ℚ) :
    (∃ pre ds : List Char,
      (packet_to_log_data p classification confidence).confidence
        = String.mk (pre ++ '.' :: ds) ∧
      ds.length = 4 ∧ (∀ c ∈ ds, c.isDigit) ∧ (∀ c ∈ pre, c ≠ '.')) ∧
    (packet_to_log_data p classification confidence).confidence = format4 confidence ∧
    format4 (58/100) = "0.5800" := by
  refine ⟨?_, packet_to_log_data_confidence p classification confidence, format4_58⟩
  refine ⟨(if confidence < 0 then ['-'] else []) ++
      decDigits ((round (|confidence| * 10000) : ℤ).toNat / 10000),
    fourFrac ((round (|confidence| * 10000) : ℤ).toNat % 10000), ?_, rfl,
    fourFrac_isDigit _, ?_⟩
  · rw [packet_to_log_data_confidence, format4_shape]
  · intro c hc
    rcases List.mem_append.mp hc with h | h
    · by_cases hq : confidence < 0
      · rw [if_pos hq] at h
        rcases List.mem_singleton.mp h with rfl
        decide
      · rw [if_neg hq] at h
        simp at h
    · exact isDigit_ne_dot (decDigits_isDigit _ c h)

lemma ingestStep_snd (st : ApiState) (ids : List ℕ) (x : IngestItem) :
    (ingestStep (st, ids) x).2 = ids ++ [st.lastPacketId + 1] := rfl

lemma ingestStep_lastId (st : ApiState) (ids : List ℕ) (x : IngestItem) :
    (ingestStep (st, ids) x).1.lastPacketId = st.lastPacketId + 1 := by
  simp only [ingestStep]
  split <;> rfl

lemma ingest_loop_ids (items : List IngestItem) :
    ∀ (st : ApiState) (ids : List ℕ),
      (items.foldl ingestStep (st, ids)).2
          = ids ++ List.range' (st.lastPacketId + 1) items.length ∧
      (items.foldl ingestStep (st, ids)).1.lastPacketId
          = st.lastPacketId + items.length := by
  induction items with
  | nil => intro st ids; simp
  | cons x xs ih =>
    intro st ids
    simp only [List.foldl_cons]
    have hpair : ingestStep (st, ids) x
        = ((ingestStep (st, ids) x).1, ids ++ [st.lastPacketId + 1]) := by
      rw [← ingestStep_snd st ids x]
    rw [hpair]
    rcases ih (ingestStep (st, ids) x).1 (ids ++ [st.lastPacketId + 1]) with ⟨ha, hb⟩
    rw [ha, hb, ingestStep_lastId]
    constructor
    · rw [List.append_assoc, List.length_cons, List.range'_succ, List.singleton_append]
    · rw [List.length_cons]
      omega

lemma takeLast_length_le (n : ℕ) (l : List α) : (takeLast n l).length ≤ n := by
  simp only [takeLast, List.length_drop]
  omega

/-- C4: ingestion assigns strictly increasing contiguous ids in arrival
order — a batch of K records into the empty store gets ids 1..K — the
retained window never exceeds `MAX_LIVE_PACKETS`, and sixty sequential
single-record ingestions leave exactly the 50 most recent records, ids
11..60, the oldest evicted. -/
theorem C4_ingest_ids_and_retention :
    (∀ items : List IngestItem,
      (ingestBatch emptyApiState items).2 = List.range' 1 items.length) ∧
    (∀ (st : ApiState) (items : List IngestItem),
      (ingestBatch st items).1.liveLog.length ≤ MAX_LIVE_PACKETS) ∧
    ((List.replicate 60 sampleItem).foldl (fun st it => (ingestSingle st it).1)
        emptyApiState).liveLog.map IngestedRecord.id = List.range' 11 50 ∧
    ((List.replicate 60 sampleItem).foldl (fun st it => (ingestSingle st it).1)
        emptyApiState).liveLog.length = 50 := by
  refine ⟨?_, ?_, ?_, ?_⟩
  · intro items
    have h := (ingest_loop_ids items emptyApiState []).1
    simpa [ingestBatch] using h
  · intro st items
    exact takeLast_length_le _ _
  · set_option maxRecDepth 10000 in decide
  · set_option maxRecDepth 10000 in decide

/-- C5 counterexample: feeding 25 records (2.5 × `BATCH_SIZE`) with no
timer tick yet produces zero flush attempts, not the at-least-two the
size trigger would give — the source never consults `BATCH_SIZE`. -/
theorem C5_size_trigger_counterexample :
    BATCH_SIZE = 10 ∧
    (emitterRun (1/2) Option.none ⟨[], 0⟩
      (List.replicate 25 (SnifferEvent.capture samplePacket))).buffer.length = 25 ∧
    (emitterRun (1/2) Option.none ⟨[], 0⟩
      (List.replicate 25 (SnifferEvent.capture samplePacket))).flushAttempts = 0 ∧
    ¬ 2 ≤ (emitterRun (1/2) Option.none ⟨[], 0⟩
      (List.replicate 25 (SnifferEvent.capture samplePacket))).flushAttempts := by
  refine ⟨rfl, by decide, by decide, by decide⟩

/-- C5 amended: the emitter flushes only on the periodic time trigger —
capture events never change the attempt count however full the buffer
gets, a timer tick attempts delivery exactly when the buffer is non-empty,
and the 25-record feed yields exactly one attempt once the first tick
fires. -/
theorem C5_flush_only_on_timer :
    (∀ (s : ℚ) (m : Option Model) (st : EmitterState) (evs : List SnifferEvent),
      (∀ e ∈ evs, ∃ p, e = SnifferEvent.capture p) →
      (emitterRun s m st evs).flushAttempts = st.flushAttempts) ∧
    (∀ (s : ℚ) (m : Option Model) (st : EmitterState) (ok : Bool),
      (emitterStep s m st (SnifferEvent.timerTick ok)).flushAttempts
        = st.flushAttempts + (if st.buffer = [] then 0 else 1)) ∧
    SEND_INTERVAL = 1 ∧
    (emitterRun (1/2) Option.none ⟨[], 0⟩
      (List.replicate 25 (SnifferEvent.capture samplePacket)
        ++ [SnifferEvent.timerTick true])).flushAttempts = 1 := by
  refine ⟨?_, ?_, rfl, by decide⟩
  · intro s m st evs
    induction evs generalizing st with
    | nil => intro _; rfl
    | cons e es ih =>
      intro h
      rcases h e (List.mem_cons_self e es) with ⟨p, rfl⟩
      simp only [emitterRun, List.foldl_cons]
      exact ih _ (fun e' he' => h e' (List.mem_cons_of_mem _ he'))
  · intro s m st ok
    simp only [emitterStep, send_traffic_batch]
    by_cases h : st.buffer = [] <;> simp [h]

/-- C2, evaluated at a TCP SYN packet: the extractor emits the 4-field
vector `[6, 60, 64, 1]` (protocol, length, ttl, flag count) while
`generate_model.py` establishes an 11-column training order with different
fields, so the inference vector cannot match the training order element for
element; against any model fitted on `SNIFFER_FEATURES` the shape mismatch
degrades every prediction to `(0, 0.0)`. -/
theorem C2_feature_order_mismatch :
    extract_features samplePacket = some [6, 60, 64, 1] ∧
    (extract_features samplePacket).map List.length = some 4 ∧
    SNIFFER_FEATURES.length = 11 ∧
    extractorFeatureNames ≠ SNIFFER_FEATURES ∧
    (∀ m : Model, m.nFeatures = SNIFFER_FEATURES.length →
      MLEngine.predict (some m) [6, 60, 64, 1] = (0, 0)) := by
  refine ⟨by decide, by decide, by decide, by decide, ?_⟩
  intro m hm
  simp only [MLEngine.predict]
  rw [if_pos (Or.inl (by rw [hm]; decide))]

end NIDS
